import Mathlib

/-!
Shallow embedding of the go-mail-ru-client repository (Go package
mailrucloud): the error taxonomy (src/errors.go), size normalization
(src/types.go), account capability gating (src/unnamed/part_000), path
handling and the client-side checked prefixes of the CloudClient
operations, and the File/Folder entry methods.  Network transport, JSON
decoding and the authorization probe are modelled by explicit parameters
standing for their observable results (HTTP status, decoded body,
resolution outcome); everything the client computes locally is translated
directly from the Go source.
-/

namespace MailRuCloud

/-- ErrorCode from src/errors.go. -/
inductive ErrorCode where
  | noneCode
  | pathNotExists
  | uploadingSizeLimit
  | downloadingSizeLimit
  | differentParentPaths
  | historyNotExists
  | notSupportedOperation
  | publicLinkNotExists
  deriving DecidableEq, Repr

/-- CloudClientError from src/errors.go: Message, Source, ErrorCode
(the last field is named ErrCode here to avoid shadowing the type). -/
structure CloudClientError where
  Message : String
  Source : String
  ErrCode : ErrorCode
  deriving DecidableEq, Repr

/-- An operation-level error: either a CloudClientError or a
NotAuthorizedError (src/errors.go declares both error types; the
NotAuthorizedError message fields are not needed by any claim). -/
inductive OpError where
  | cloud (e : CloudClientError)
  | notAuthorized
  deriving DecidableEq, Repr

/-- The domain error code carried by a failed result, if any. -/
def resultCode {α : Type} : Except OpError α → Option ErrorCode
  | .error (.cloud e) => some e.ErrCode
  | .error .notAuthorized => none
  | .ok _ => none

/-- Rate from src/types.go (billing sub-structures that no claim touches
are omitted). -/
structure Rate where
  Name : String
  IsActive : Bool
  ID : String
  IsAvailable : Bool
  SizeBytes : Int
  deriving DecidableEq, Repr

/-- Account (src/unnamed/part_000): the fields the claims depend on; the
HTTP client, cookie jar and auth token are transport state modelled
elsewhere by an `authorized` flag. -/
structure Account where
  Email : String
  Password : String
  ActivatedTariffs : List Rate
  deriving DecidableEq, Repr

/-- The loop of Account.Has2GBUploadSizeLimit: return false at the first
rate whose ID differs from "ZERO", true past the end of the list. -/
def hasOnlyZeroRates : List Rate → Bool
  | [] => true
  | r :: rest => if r.ID ≠ "ZERO" then false else hasOnlyZeroRates rest

/-- Account.Has2GBUploadSizeLimit (src/unnamed/part_000 lines 40-47). -/
def Account.Has2GBUploadSizeLimit (a : Account) : Bool :=
  hasOnlyZeroRates a.ActivatedTariffs

/-- C1: Has2GBUploadSizeLimit returns true iff every activated tariff has
identifier "ZERO"; in particular it is vacuously true on an empty tariff
list and false as soon as some tariff has another identifier. -/
theorem C1_has2GB_iff_all_zero (a : Account) :
    a.Has2GBUploadSizeLimit = true ↔ ∀ r ∈ a.ActivatedTariffs, r.ID = "ZERO" := by
  unfold Account.Has2GBUploadSizeLimit
  induction a.ActivatedTariffs with
  | nil => simp [hasOnlyZeroRates]
  | cons r rest ih =>
    by_cases h : r.ID = "ZERO"
    · simp [hasOnlyZeroRates, h, ih]
    · simp [hasOnlyZeroRates, h]

/-- StorageUnit from src/types.go. -/
inductive StorageUnit where
  | StorageUnitByte
  | StorageUnitKB
  | StorageUnitMB
  | StorageUnitGB
  | StorageUnitTB
  deriving DecidableEq, Repr

/-- Size from src/types.go.  The float64 NormalizedValue is modelled as an
exact rational; at every instance stated below the Go float64 computation
is exact, so the models agree there. -/
structure Size where
  DefaultValue : Int
  NormalizedValue : ℚ
  NormalizedType : StorageUnit
  deriving DecidableEq, Repr

/-- Go's int(x) conversion on a float truncates toward zero. -/
def goTruncToInt (x : ℚ) : Int := if 0 ≤ x then ⌊x⌋ else ⌈x⌉

/-- The final line of setNormalizedValue:
s.NormalizedValue = float64(int(s.NormalizedValue*100)) / 100.0 -/
def truncTwoDecimals (x : ℚ) : ℚ := (goTruncToInt (x * 100) : ℚ) / 100

/-- setNormalizedValue (src/types.go lines 42-60): choose the unit by
thresholds at powers of 1024, divide accordingly, then keep two decimal
places by truncation.  The source applies the truncation once after the
if-chain; here it is applied in each branch, which is the same function. -/
def setNormalizedValue (v : Int) : StorageUnit × ℚ :=
  if v < 1024 then
    (StorageUnit.StorageUnitByte, truncTwoDecimals (v : ℚ))
  else if 1024 ≤ v ∧ v < 1048576 then
    (StorageUnit.StorageUnitKB, truncTwoDecimals ((v : ℚ) / 1024))
  else if 1048576 ≤ v ∧ v < 1073741824 then
    (StorageUnit.StorageUnitMB, truncTwoDecimals ((v : ℚ) / 1024 / 1024))
  else if 1073741824 ≤ v ∧ v < 1099511627776 then
    (StorageUnit.StorageUnitGB, truncTwoDecimals ((v : ℚ) / 1024 / 1024 / 1024))
  else
    (StorageUnit.StorageUnitTB, truncTwoDecimals ((v : ℚ) / 1024 / 1024 / 1024 / 1024))

/-- NewSize (src/types.go lines 34-40). -/
def NewSize (v : Int) : Size :=
  { DefaultValue := v
    NormalizedValue := (setNormalizedValue v).2
    NormalizedType := (setNormalizedValue v).1 }

/-- C9: the Size constructor selects the unit purely by thresholds at
powers of 1024 (bytes < 1024 → Byte, < 1024^2 → KB, < 1024^3 → MB,
< 1024^4 → GB, else TB); 1023 → Byte, 1024 → KB with magnitude 1.00,
1048575 → KB with magnitude 1023.99 (truncated — rounding would give
1024.00), 1048576 → MB with magnitude 1.00. -/
theorem C9_size_normalization :
    (∀ v : Int, v < 1024 →
      (NewSize v).NormalizedType = StorageUnit.StorageUnitByte) ∧
    (∀ v : Int, 1024 ≤ v → v < 1048576 →
      (NewSize v).NormalizedType = StorageUnit.StorageUnitKB) ∧
    (∀ v : Int, 1048576 ≤ v → v < 1073741824 →
      (NewSize v).NormalizedType = StorageUnit.StorageUnitMB) ∧
    (∀ v : Int, 1073741824 ≤ v → v < 1099511627776 →
      (NewSize v).NormalizedType = StorageUnit.StorageUnitGB) ∧
    (∀ v : Int, 1099511627776 ≤ v →
      (NewSize v).NormalizedType = StorageUnit.StorageUnitTB) ∧
    NewSize 1023 =
      { DefaultValue := 1023, NormalizedValue := 1023,
        NormalizedType := StorageUnit.StorageUnitByte } ∧
    NewSize 1024 =
      { DefaultValue := 1024, NormalizedValue := 1,
        NormalizedType := StorageUnit.StorageUnitKB } ∧
    NewSize 1048575 =
      { DefaultValue := 1048575, NormalizedValue := 102399 / 100,
        NormalizedType := StorageUnit.StorageUnitKB } ∧
    NewSize 1048576 =
      { DefaultValue := 1048576, NormalizedValue := 1,
        NormalizedType := StorageUnit.StorageUnitMB } := by
  refine ⟨?_, ?_, ?_, ?_, ?_, ?_, ?_, ?_, ?_⟩
  · intro v h
    unfold NewSize setNormalizedValue
    rw [if_pos h]
  · intro v h1 h2
    unfold NewSize setNormalizedValue
    rw [if_neg (by omega), if_pos ⟨h1, h2⟩]
  · intro v h1 h2
    unfold NewSize setNormalizedValue
    rw [if_neg (by omega), if_neg (by omega), if_pos ⟨h1, h2⟩]
  · intro v h1 h2
    unfold NewSize setNormalizedValue
    rw [if_neg (by omega), if_neg (by omega), if_neg (by omega),
      if_pos ⟨h1, h2⟩]
  · intro v h1
    unfold NewSize setNormalizedValue
    rw [if_neg (by omega), if_neg (by omega), if_neg (by omega),
      if_neg (by omega)]
  · unfold NewSize setNormalizedValue truncTwoDecimals goTruncToInt
    norm_num
  · unfold NewSize setNormalizedValue truncTwoDecimals goTruncToInt
    norm_num
  · unfold NewSize setNormalizedValue truncTwoDecimals goTruncToInt
    norm_num
  · unfold NewSize setNormalizedValue truncTwoDecimals goTruncToInt
    norm_num

/-- C9 witness: the threshold clauses applied at 1023, 1024, 1048576,
1073741824 and 1099511627776. -/
theorem C9_size_normalization_witness :
    (NewSize 1023).NormalizedType = StorageUnit.StorageUnitByte ∧
    (NewSize 1024).NormalizedType = StorageUnit.StorageUnitKB ∧
    (NewSize 1048576).NormalizedType = StorageUnit.StorageUnitMB ∧
    (NewSize 1073741824).NormalizedType = StorageUnit.StorageUnitGB ∧
    (NewSize 1099511627776).NormalizedType = StorageUnit.StorageUnitTB :=
  ⟨C9_size_normalization.1 1023 (by norm_num),
   C9_size_normalization.2.1 1024 (by norm_num) (by norm_num),
   C9_size_normalization.2.2.1 1048576 (by norm_num) (by norm_num),
   C9_size_normalization.2.2.2.1 1073741824 (by norm_num) (by norm_num),
   C9_size_normalization.2.2.2.2.1 1099511627776 (by norm_num)⟩

/-!  Path handling (src/cloud_client_test.go client part, getPathStartEndSlash
and getParentCloudPath).  Go strings are modelled as lists of characters. -/

/-- A character matched by the regexp character class of
getPathStartEndSlash: a forward or a backward slash. -/
def isSlashChar (c : Char) : Bool := c = '/' || c = '\\'

/-- The regexp replacement ReplaceAllString of runs matching that class by
a single "/": a left-to-right pass whose Boolean state records whether the
previous input character belonged to a slash run. -/
def collapseAux : Bool → List Char → List Char
  | _, [] => []
  | prev, c :: rest =>
    if isSlashChar c then
      if prev then collapseAux true rest
      else '/' :: collapseAux true rest
    else c :: collapseAux false rest

/-- regexp.MustCompile of the slash class, ReplaceAllString with "/". -/
def collapseSlashes (s : List Char) : List Char := collapseAux false s

/-- CloudClient.getPathStartEndSlash (client source lines 1010-1028):
conditionally prepend "/", conditionally append "/", then collapse every
run of slashes and backslashes into a single "/".  (The source's initial
`if path == "" { path = "" }` is the identity and is dropped.) -/
def getPathStartEndSlash (path : List Char) (setAtStart setAtEnd : Bool) :
    List Char :=
  let p1 := if setAtStart then '/' :: path else path
  let p2 := if setAtEnd then p1 ++ ['/'] else p1
  collapseSlashes p2

/-- Specification of collapsed output: no backslash, no two adjacent
slashes, and (when the state flag is true) no leading slash. -/
def noBadRuns : Bool → List Char → Bool
  | _, [] => true
  | prev, c :: rest =>
    if c = '\\' then false
    else if c = '/' then !prev && noBadRuns true rest
    else noBadRuns false rest

theorem noBadRuns_collapseAux (s : List Char) :
    ∀ prev, noBadRuns prev (collapseAux prev s) = true := by
  induction s with
  | nil => intro prev; rfl
  | cons c rest ih =>
    intro prev
    by_cases hs : isSlashChar c = true
    · cases prev with
      | true => simpa [collapseAux, hs] using ih true
      | false =>
        simp only [collapseAux, hs, if_true, if_false, Bool.false_eq_true]
        simpa [noBadRuns] using ih true
    · have hc1 : ¬c = '/' := by
        intro h; exact hs (by simp [isSlashChar, h])
      have hc2 : ¬c = '\\' := by
        intro h; exact hs (by simp [isSlashChar, h])
      simp only [collapseAux, hs, if_false, Bool.false_eq_true]
      simpa [noBadRuns, hc1, hc2] using ih false

theorem collapseAux_fixed (s : List Char) :
    ∀ prev, noBadRuns prev s = true → collapseAux prev s = s := by
  induction s with
  | nil => intro prev _; rfl
  | cons c rest ih =>
    intro prev h
    by_cases hb : c = '\\'
    · simp [noBadRuns, hb] at h
    · by_cases hsl : c = '/'
      · have h' := h
        simp only [noBadRuns, hb, if_false, hsl, if_true] at h'
        have hprev : prev = false := by
          cases prev with
          | false => rfl
          | true => simp at h'
        have hrest : noBadRuns true rest = true := by
          cases prev with
          | false => simpa using h'
          | true => simp at h'
        subst hprev
        simp [collapseAux, isSlashChar, hsl, ih true hrest]
      · have hrest : noBadRuns false rest = true := by
          simpa [noBadRuns, hb, hsl] using h
        have hns : isSlashChar c = false := by
          simp [isSlashChar, hsl, hb]
        simp [collapseAux, hns, ih false hrest]

/-- Whether the last character of the list is a slash; false for []. -/
def endsWithSlash : List Char → Bool
  | [] => false
  | [c] => c = '/'
  | _ :: c :: rest => endsWithSlash (c :: rest)

theorem endsWithSlash_cons (c : Char) (s : List Char) (h : s ≠ []) :
    endsWithSlash (c :: s) = endsWithSlash s := by
  cases s with
  | nil => exact absurd rfl h
  | cons d t => rfl

theorem collapseAux_false_ne_nil (c : Char) (rest : List Char) :
    collapseAux false (c :: rest) ≠ [] := by
  by_cases hs : isSlashChar c = true <;> simp [collapseAux, hs]

theorem collapseAux_append_slash (s : List Char) :
    ∀ prev, noBadRuns prev s = true →
      collapseAux prev (s ++ ['/']) =
        if s = [] then (if prev then [] else ['/'])
        else if endsWithSlash s then s else s ++ ['/'] := by
  induction s with
  | nil =>
    intro prev _
    cases prev <;> simp [collapseAux, isSlashChar]
  | cons c t ih =>
    intro prev h
    by_cases hb : c = '\\'
    · simp [noBadRuns, hb] at h
    · by_cases hsl : c = '/'
      · have h' := h
        simp only [noBadRuns, hb, if_false, hsl, if_true] at h'
        have hprev : prev = false := by
          cases prev with
          | false => rfl
          | true => simp at h'
        have hrest : noBadRuns true t = true := by
          cases prev with
          | false => simpa using h'
          | true => simp at h'
        subst hprev
        subst hsl
        have step : collapseAux false (('/' :: t) ++ ['/']) =
            '/' :: collapseAux true (t ++ ['/']) := by
          simp [collapseAux, isSlashChar]
        rw [step, ih true hrest]
        cases t with
        | nil => simp [endsWithSlash]
        | cons d u =>
          have hne : (d :: u : List Char) ≠ [] := by simp
          rw [endsWithSlash_cons '/' (d :: u) hne]
          by_cases he : endsWithSlash (d :: u) = true
          · simp [he]
          · simp [he]
      · have hrest : noBadRuns false t = true := by
          simpa [noBadRuns, hb, hsl] using h
        have hns : isSlashChar c = false := by
          simp [isSlashChar, hsl, hb]
        have step : collapseAux prev ((c :: t) ++ ['/']) =
            c :: collapseAux false (t ++ ['/']) := by
          simp [collapseAux, hns]
        rw [step, ih false hrest]
        cases t with
        | nil => simp [endsWithSlash, hsl]
        | cons d u =>
          have hne : (d :: u : List Char) ≠ [] := by simp
          rw [endsWithSlash_cons c (d :: u) hne]
          by_cases he : endsWithSlash (d :: u) = true
          · simp [he]
          · simp [he]

theorem collapseAux_append_slash_ends (s : List Char) :
    ∀ prev, collapseAux prev (s ++ ['/']) = [] ∨
      endsWithSlash (collapseAux prev (s ++ ['/'])) = true := by
  induction s with
  | nil =>
    intro prev
    cases prev with
    | true => left; simp [collapseAux, isSlashChar]
    | false => right; simp [collapseAux, isSlashChar, endsWithSlash]
  | cons c t ih =>
    intro prev
    by_cases hs : isSlashChar c = true
    · cases prev with
      | true =>
        have step : collapseAux true ((c :: t) ++ ['/']) =
            collapseAux true (t ++ ['/']) := by simp [collapseAux, hs]
        rw [step]; exact ih true
      | false =>
        have step : collapseAux false ((c :: t) ++ ['/']) =
            '/' :: collapseAux true (t ++ ['/']) := by simp [collapseAux, hs]
        rw [step]
        right
        rcases ih true with hnil | hend
        · rw [hnil]; rfl
        · have hne : collapseAux true (t ++ ['/']) ≠ [] := by
            intro hx; rw [hx] at hend; simp [endsWithSlash] at hend
          rw [endsWithSlash_cons _ _ hne]; exact hend
    · have step : collapseAux prev ((c :: t) ++ ['/']) =
          c :: collapseAux false (t ++ ['/']) := by simp [collapseAux, hs]
      rw [step]
      right
      rcases ih false with hnil | hend
      · exfalso
        cases t with
        | nil => simp [collapseAux, isSlashChar] at hnil
        | cons d u => exact collapseAux_false_ne_nil d (u ++ ['/']) (by simpa using hnil)
      · have hne : collapseAux false (t ++ ['/']) ≠ [] := by
          intro hx; rw [hx] at hend; simp [endsWithSlash] at hend
        rw [endsWithSlash_cons _ _ hne]; exact hend

/-- C7: path normalization is idempotent — for every path and every
combination of the leading-slash and trailing-slash flags, applying
getPathStartEndSlash twice equals applying it once. -/
theorem C7_getPathStartEndSlash_idempotent (p : List Char) (a b : Bool) :
    getPathStartEndSlash (getPathStartEndSlash p a b) a b =
      getPathStartEndSlash p a b := by
  cases a with
  | false =>
    cases b with
    | false =>
      show collapseAux false (collapseAux false p) = collapseAux false p
      exact collapseAux_fixed _ false (noBadRuns_collapseAux p false)
    | true =>
      show collapseAux false (collapseAux false (p ++ ['/']) ++ ['/']) =
        collapseAux false (p ++ ['/'])
      set q := collapseAux false (p ++ ['/']) with hq
      have hnoq : noBadRuns false q = true := noBadRuns_collapseAux _ false
      have hqne : q ≠ [] := by
        rw [hq]
        cases p with
        | nil => simp [collapseAux, isSlashChar]
        | cons c t => exact collapseAux_false_ne_nil c (t ++ ['/'])
      have hqend : endsWithSlash q = true := by
        rcases collapseAux_append_slash_ends p false with hnil | hend
        · exact absurd (hq.trans hnil) hqne
        · rw [hq]; exact hend
      rw [collapseAux_append_slash q false hnoq]
      simp [hqne, hqend]
  | true =>
    cases b with
    | false =>
      show collapseAux false ('/' :: collapseAux false ('/' :: p)) =
        collapseAux false ('/' :: p)
      have e1 : collapseAux false ('/' :: p) = '/' :: collapseAux true p := by
        simp [collapseAux, isSlashChar]
      rw [e1]
      have e2 : collapseAux false ('/' :: '/' :: collapseAux true p) =
          '/' :: collapseAux true (collapseAux true p) := by
        simp [collapseAux, isSlashChar]
      rw [e2, collapseAux_fixed _ true (noBadRuns_collapseAux p true)]
    | true =>
      show collapseAux false
          (('/' :: collapseAux false (('/' :: p) ++ ['/'])) ++ ['/']) =
        collapseAux false (('/' :: p) ++ ['/'])
      have e1 : collapseAux false (('/' :: p) ++ ['/']) =
          '/' :: collapseAux true (p ++ ['/']) := by
        simp [collapseAux, isSlashChar]
      set q0 := collapseAux true (p ++ ['/']) with hq0
      rw [e1]
      have e2 : (('/' :: ('/' :: q0)) ++ ['/']) =
          '/' :: '/' :: (q0 ++ ['/']) := by simp
      rw [e2]
      have e3 : collapseAux false ('/' :: '/' :: (q0 ++ ['/'])) =
          '/' :: collapseAux true (q0 ++ ['/']) := by
        simp [collapseAux, isSlashChar]
      rw [e3]
      have hnoq0 : noBadRuns true q0 = true := noBadRuns_collapseAux _ true
      rw [collapseAux_append_slash q0 true hnoq0]
      by_cases hq0nil : q0 = []
      · simp [hq0nil]
      · have hq0end : endsWithSlash q0 = true := by
          rcases collapseAux_append_slash_ends p true with hnil | hend
          · exact absurd (hq0.trans hnil) hq0nil
          · rw [hq0]; exact hend
        simp [hq0nil, hq0end]

/-- strings.TrimSuffix(path, "/"): remove one trailing slash if present. -/
def trimSuffixSlash : List Char → List Char
  | [] => []
  | [c] => if c = '/' then [] else [c]
  | c :: d :: rest => c :: trimSuffixSlash (d :: rest)

/-- The prefix of the list through its last '/' inclusive, or none if it
contains no '/': strings.LastIndex plus the path[:lastIndex+1] slice. -/
def lastSlashPrefix : List Char → Option (List Char)
  | [] => none
  | c :: rest =>
    match lastSlashPrefix rest with
    | some p => some (c :: p)
    | none => if c = '/' then some [c] else none

/-- CloudClient.getParentCloudPath (client source lines 1031-1038): trim
one trailing slash, then keep everything through the last remaining
slash; "/" when no slash remains. -/
def getParentCloudPath (path : List Char) : List Char :=
  match lastSlashPrefix (trimSuffixSlash path) with
  | none => ['/']
  | some q => q

theorem lastSlashPrefix_ne_nil (s : List Char) :
    ∀ l, lastSlashPrefix s = some l → l ≠ [] := by
  induction s with
  | nil => intro l h; simp [lastSlashPrefix] at h
  | cons c rest ih =>
    intro l h
    simp only [lastSlashPrefix] at h
    cases hr : lastSlashPrefix rest with
    | some p => rw [hr] at h; simp at h; simp [← h]
    | none =>
      rw [hr] at h
      by_cases hc : c = '/'
      · simp [hc] at h; simp [← h]
      · simp [hc] at h

theorem getParentCloudPath_ne_nil (p : List Char) :
    getParentCloudPath p ≠ [] := by
  unfold getParentCloudPath
  cases h : lastSlashPrefix (trimSuffixSlash p) with
  | none => simp
  | some q => simpa using lastSlashPrefix_ne_nil _ q h

/-- The common-parent loop of GetDirectLinkZIPArchive (client source
lines 1625-1636): the state is (allHasCommonPath, commonPath); commonPath
starts empty and is seeded from the first parent (getParentCloudPath
never returns an empty string). -/
def zipParentLoop : List (List Char) → Bool → List Char → Bool × List Char
  | [], acc, common => (acc, common)
  | p :: rest, acc, common =>
    let parentPath := getParentCloudPath p
    let common' := if common = [] then parentPath else common
    zipParentLoop rest (acc && decide (common' = parentPath)) common'

/-- The client-side checked prefix of CloudClient.GetDirectLinkZIPArchive
(client source lines 1595-1644): reject an empty path list, reject any
path that is empty or the root, require authorization, then require all
parents to agree; `.ok ()` marks that the archive request would be
issued.  The archive-name derivation between the authorization check and
the parent loop does not influence this outcome and is omitted. -/
def GetDirectLinkZIPArchiveCheck (authorized : Bool)
    (paths : List (List Char)) : Except OpError Unit :=
  if paths = [] then
    .error (.cloud ⟨"Список путей не может быть пустым", "",
      ErrorCode.pathNotExists⟩)
  else if paths.any (fun q => decide (q = []) || decide (q = ['/'])) then
    .error (.cloud ⟨"Один из путей пуст или указывает на домашнюю директорию",
      "", ErrorCode.pathNotExists⟩)
  else if ¬authorized then .error .notAuthorized
  else if !(zipParentLoop paths true []).1 then
    .error (.cloud ⟨"Некоторые файлы или папки имеют разные общие пути. Все элементы должны иметь общую родительскую папку",
      "filesAndFoldersPaths", ErrorCode.differentParentPaths⟩)
  else .ok ()

theorem zipParentLoop_spec (rest : List (List Char)) :
    ∀ acc common, common ≠ [] →
      (zipParentLoop rest acc common).1 =
        (acc && rest.all fun q => decide (common = getParentCloudPath q)) := by
  induction rest with
  | nil => intro acc common _; simp [zipParentLoop]
  | cons p t ih =>
    intro acc common hc
    simp only [zipParentLoop, if_neg hc]
    rw [ih _ common hc, List.all_cons, ← Bool.and_assoc]

theorem zipParentLoop_head (p : List Char) (rest : List (List Char)) :
    (zipParentLoop (p :: rest) true []).1 =
      rest.all fun q =>
        decide (getParentCloudPath p = getParentCloudPath q) := by
  have e : zipParentLoop (p :: rest) true [] =
      zipParentLoop rest
        (true && decide (getParentCloudPath p = getParentCloudPath p))
        (getParentCloudPath p) := by
    simp [zipParentLoop]
  rw [e, zipParentLoop_spec rest _ _ (getParentCloudPath_ne_nil p)]
  simp

/-- C8: the ZIP direct-link request fails on an empty path list and on
any empty or root input path; with valid inputs it fails with
DifferentParentPaths — before any request — when the parents derived by
getParentCloudPath are not all equal, and passes the common-parent check
when they are; "/f/a.txt" and "/f/b.txt" both derive parent "/f/". -/
theorem C8_getDirectLinkZIPArchive :
    (∀ authorized, GetDirectLinkZIPArchiveCheck authorized [] =
      .error (.cloud ⟨"Список путей не может быть пустым", "",
        ErrorCode.pathNotExists⟩)) ∧
    (∀ authorized paths p, p ∈ paths → (p = [] ∨ p = ['/']) →
      GetDirectLinkZIPArchiveCheck authorized paths =
        .error (.cloud
          ⟨"Один из путей пуст или указывает на домашнюю директорию", "",
           ErrorCode.pathNotExists⟩)) ∧
    (∀ p rest, (∀ q ∈ p :: rest, ¬(q = [] ∨ q = ['/'])) →
      ¬(∀ q ∈ rest, getParentCloudPath q = getParentCloudPath p) →
      GetDirectLinkZIPArchiveCheck true (p :: rest) =
        .error (.cloud
          ⟨"Некоторые файлы или папки имеют разные общие пути. Все элементы должны иметь общую родительскую папку",
           "filesAndFoldersPaths", ErrorCode.differentParentPaths⟩)) ∧
    (∀ p rest, (∀ q ∈ p :: rest, ¬(q = [] ∨ q = ['/'])) →
      (∀ q ∈ rest, getParentCloudPath q = getParentCloudPath p) →
      GetDirectLinkZIPArchiveCheck true (p :: rest) = .ok ()) ∧
    getParentCloudPath ("/f/a.txt".toList) = "/f/".toList ∧
    getParentCloudPath ("/f/b.txt".toList) = "/f/".toList := by
  have hany : ∀ (paths : List (List Char)),
      (∀ q ∈ paths, ¬(q = [] ∨ q = ['/'])) →
      (paths.any fun q => decide (q = []) || decide (q = ['/'])) = false := by
    intro paths h
    rw [List.any_eq_false]
    intro q hq
    simp only [Bool.or_eq_true, decide_eq_true_eq]
    exact h q hq
  refine ⟨?_, ?_, ?_, ?_, by decide, by decide⟩
  · intro authorized
    simp [GetDirectLinkZIPArchiveCheck]
  · intro authorized paths p hp hbad
    have hne : paths ≠ [] := by rintro rfl; exact (List.not_mem_nil p) hp
    have hany2 : (paths.any fun q =>
        decide (q = []) || decide (q = ['/'])) = true := by
      rw [List.any_eq_true]
      exact ⟨p, hp, by simpa using hbad⟩
    unfold GetDirectLinkZIPArchiveCheck
    rw [if_neg hne, if_pos hany2]
  · intro p rest hgood hdiff
    have hall : (rest.all fun q =>
        decide (getParentCloudPath p = getParentCloudPath q)) = false := by
      cases hcase : rest.all fun q =>
          decide (getParentCloudPath p = getParentCloudPath q) with
      | false => rfl
      | true =>
        exact absurd
          (fun q hq =>
            ((by simpa using (List.all_eq_true.mp hcase) q hq :
              getParentCloudPath p = getParentCloudPath q)).symm) hdiff
    unfold GetDirectLinkZIPArchiveCheck
    rw [zipParentLoop_head]
    simp [hany (p :: rest) hgood, hall]
  · intro p rest hgood hsame
    have hall : (rest.all fun q =>
        decide (getParentCloudPath p = getParentCloudPath q)) = true := by
      rw [List.all_eq_true]
      intro q hq
      simpa using (hsame q hq).symm
    unfold GetDirectLinkZIPArchiveCheck
    rw [zipParentLoop_head]
    simp [hany (p :: rest) hgood, hall]

/-- C8 witness: the bad-path clause at [""], the rejection clause at
"/f/a.txt" with "/g/b.txt", and the acceptance clause at "/f/a.txt" with
"/f/b.txt". -/
theorem C8_getDirectLinkZIPArchive_witness :
    GetDirectLinkZIPArchiveCheck true [[]] =
      .error (.cloud
        ⟨"Один из путей пуст или указывает на домашнюю директорию", "",
         ErrorCode.pathNotExists⟩) ∧
    GetDirectLinkZIPArchiveCheck true
        ["/f/a.txt".toList, "/g/b.txt".toList] =
      .error (.cloud
        ⟨"Некоторые файлы или папки имеют разные общие пути. Все элементы должны иметь общую родительскую папку",
         "filesAndFoldersPaths", ErrorCode.differentParentPaths⟩) ∧
    GetDirectLinkZIPArchiveCheck true
        ["/f/a.txt".toList, "/f/b.txt".toList] = .ok () :=
  ⟨C8_getDirectLinkZIPArchive.2.1 true [[]] [] (by decide) (by decide),
   C8_getDirectLinkZIPArchive.2.2.1 ("/f/a.txt".toList)
     ["/g/b.txt".toList] (by decide) (by decide),
   C8_getDirectLinkZIPArchive.2.2.2.1 ("/f/a.txt".toList)
     ["/f/b.txt".toList] (by decide) (by decide)⟩

/-!  The cloud entry model (src/types.go, src/errors.go). -/

/-- The PublicLink URL prefix constant (client source constants). -/
def PublicLink : String := "https://cloud.mail.ru/public/"

/-- Count from src/types.go: folder and file child counts. -/
structure Count where
  Folders : Int
  Files : Int
  deriving DecidableEq, Repr

/-- CloudStructureEntry from src/types.go: the raw server-side DTO of a
cloud item (fields no claim touches are omitted).  An inductive type
because the List field nests the type recursively; the list is an Option
because the JSON array can be null. -/
inductive CloudStructureEntry where
  | mk
    (count : Count)
    (name : String)
    (size : Int)
    (etype : String)
    (home : String)
    (weblink : String)
    (list : Option (List CloudStructureEntry))

def CloudStructureEntry.count : CloudStructureEntry → Count
  | ⟨c, _, _, _, _, _, _⟩ => c

def CloudStructureEntry.name : CloudStructureEntry → String
  | ⟨_, n, _, _, _, _, _⟩ => n

def CloudStructureEntry.size : CloudStructureEntry → Int
  | ⟨_, _, s, _, _, _, _⟩ => s

/-- The Type field of the DTO ("file" or "folder"); Type is a reserved
word in Lean. -/
def CloudStructureEntry.etype : CloudStructureEntry → String
  | ⟨_, _, _, t, _, _, _⟩ => t

def CloudStructureEntry.home : CloudStructureEntry → String
  | ⟨_, _, _, _, h, _, _⟩ => h

def CloudStructureEntry.weblink : CloudStructureEntry → String
  | ⟨_, _, _, _, _, w, _⟩ => w

def CloudStructureEntry.list :
    CloudStructureEntry → Option (List CloudStructureEntry)
  | ⟨_, _, _, _, _, _, l⟩ => l

/-- CloudStructureEntryBase from src/types.go (the account and client
back-references are delegation handles, not part of the value model). -/
structure CloudStructureEntryBase where
  Name : String
  Size : Size
  FullPath : String
  PublicLink : String
  FilesCount : Int
  FoldersCount : Int
  deriving DecidableEq, Repr

/-- Folder from src/errors.go lines 62-75: the embedded base plus the
Folder-level FoldersCount/FilesCount fields — which, under Go's selector
rules, shadow the equally named embedded fields — and the child list.
prevDiskUsed and lastItemsGettingTime belong to the cache-staleness
policy and carry no claim. -/
structure Folder where
  base : CloudStructureEntryBase
  FoldersCount : Int
  FilesCount : Int
  Items : Option (List CloudStructureEntry)

/-- The pure construction step of CloudClient.GetFolder (client source
lines 939-951), from the deserialized server entry: the HTTP fetch, the
nil result on a non-200 status, and the authorization check sit outside
this construction.  The Go composite literal sets the counts on the
embedded base; the Folder-level count fields are left at their zero
values. -/
def GetFolderOfEntry (deserialized : CloudStructureEntry) : Folder :=
  let publicLink :=
    if deserialized.weblink ≠ "" then PublicLink ++ deserialized.weblink
    else ""
  { base :=
      { FilesCount := deserialized.count.Files
        FoldersCount := deserialized.count.Folders
        FullPath := deserialized.home
        Name := deserialized.name
        PublicLink := publicLink
        Size := NewSize deserialized.size }
    FoldersCount := 0
    FilesCount := 0
    Items := deserialized.list }

/-- The per-item construction of Folder.GetFolders (src/errors.go lines
116-135): base fields from the item, Folder-level counts from the
server-reported Count, Items from the item's list. -/
def folderOfChildEntry (item : CloudStructureEntry) : Folder :=
  let publicLink :=
    if item.weblink ≠ "" then PublicLink ++ item.weblink else ""
  { base :=
      { FullPath := item.home
        Name := item.name
        PublicLink := publicLink
        Size := NewSize item.size
        FilesCount := 0
        FoldersCount := 0 }
    FoldersCount := item.count.Folders
    FilesCount := item.count.Files
    Items := item.list }

/-- Folder.GetFolders (src/errors.go lines 109-138) restricted to its
pure part (the preceding updateFolderInfo call is a cache/network
effect): of the folder's current Items, keep those of type "folder". -/
def Folder.GetFolders (f : Folder) : List Folder :=
  match f.Items with
  | none => []
  | some items =>
    items.filterMap fun item =>
      if item.etype = "folder" then some (folderOfChildEntry item) else none

/-- A server folder entry counting one file and carrying a one-element
child list. -/
def c2Child : CloudStructureEntry :=
  ⟨⟨0, 0⟩, "a.txt", 5, "file", "/t/a.txt", "", none⟩

def c2Entry : CloudStructureEntry :=
  ⟨⟨0, 1⟩, "t", 5, "folder", "/t", "", some [c2Child]⟩

/-- C2 (code bug): GetFolder copies the server counts into the embedded
base struct only, so the Folder-level FilesCount/FoldersCount — the
fields a Go selector reads and TestGetItems asserts on — stay 0.  With a
server entry counting one file and carrying a one-element child list, the
produced Folder has FilesCount + FoldersCount = 0 while Items is non-null
with 1 element, violating the claimed invariant. -/
theorem C2_getFolder_counts_bug :
    (GetFolderOfEntry c2Entry).FilesCount +
        (GetFolderOfEntry c2Entry).FoldersCount = 0 ∧
    (GetFolderOfEntry c2Entry).base.FilesCount = 1 ∧
    (GetFolderOfEntry c2Entry).Items.map List.length = some 1 ∧
    (GetFolderOfEntry c2Entry).FilesCount +
        (GetFolderOfEntry c2Entry).FoldersCount ≠
      ((((GetFolderOfEntry c2Entry).Items.getD []).length : Int)) := by
  refine ⟨rfl, rfl, rfl, by decide⟩

/-!  File history (src/types.go History, client GetFileHistory and
RestoreFileFromHistory). -/

/-- History from src/types.go; the time.Time field LastModifiedTimeUTC is
modelled by its epoch seconds (LastModifiedUTCUnix), matching the
time.Unix(LastModifiedTimeUnix, 0).UTC() derivation. -/
structure History where
  ID : Int
  LastModifiedUTCUnix : Int
  Name : String
  FullPath : String
  Size : Size
  IsCurrentVersion : Bool
  Revision : Int
  Hash : String
  LastModifiedTimeUnix : Int
  SizeBytes : Int
  deriving DecidableEq, Repr

/-- The post-deserialization step of CloudClient.GetFileHistory (client
source lines 737-743): on a non-empty list, set IsCurrentVersion on the
first element, then derive every element's Size and LastModifiedTimeUTC
from its raw SizeBytes and Unix-epoch fields. -/
def getFileHistoryPost (historyList : List History) : List History :=
  match historyList with
  | [] => []
  | h0 :: rest =>
    ({ h0 with IsCurrentVersion := true } :: rest).map fun h =>
      { h with Size := NewSize h.SizeBytes
               LastModifiedUTCUnix := h.LastModifiedTimeUnix }

theorem map_isCurrent_update (l : List History) :
    ((l.map fun h =>
      ({ h with Size := NewSize h.SizeBytes
                LastModifiedUTCUnix := h.LastModifiedTimeUnix })).map
      fun h => h.IsCurrentVersion) = l.map fun h => h.IsCurrentVersion := by
  rw [List.map_map]
  rfl

theorem map_false_replicate (l : List History)
    (h : ∀ x ∈ l, x.IsCurrentVersion = false) :
    (l.map fun x => x.IsCurrentVersion) =
      List.replicate l.length false := by
  induction l with
  | nil => rfl
  | cons a t ih =>
    simp only [List.map_cons, List.length_cons, List.replicate_succ]
    rw [h a (by simp), ih fun x hx => h x (List.mem_cons_of_mem a hx)]

/-- A deserialized history element for the C6 counterexample. -/
def c6H (rev : Int) (cur : Bool) : History :=
  { ID := rev, LastModifiedUTCUnix := 0, Name := "f", FullPath := "/f",
    Size := NewSize 0, IsCurrentVersion := cur, Revision := rev,
    Hash := "h", LastModifiedTimeUnix := 10, SizeBytes := 4 }

/-- C6 counterexample: GetFileHistory sets the first element's
IsCurrentVersion but never clears later elements; a deserialized list
whose second element already carries IsCurrentVersion = true (the field
is untagged, so Go's JSON decoder populates it from a matching key in the
server response) produces a sequence with two current versions. -/
theorem C6_counterexample :
    (getFileHistoryPost [c6H 2 false, c6H 1 true]).map
        (fun h => h.IsCurrentVersion) = [true, true] ∧
    ¬((getFileHistoryPost [c6H 2 false, c6H 1 true]).countP
        (fun h => h.IsCurrentVersion) = 1) := by
  exact ⟨rfl, by decide⟩

/-- C6 amended: provided every deserialized element carries
IsCurrentVersion = false (the Go zero value, which holds whenever the
server response has no key matching the untagged field), the returned
non-empty sequence has IsCurrentVersion = true exactly on its first
element, and every element's Size and LastModifiedTimeUTC are derived
from its raw SizeBytes and Unix-epoch fields. -/
theorem C6_history_current_version (hs : List History) (hne : hs ≠ [])
    (hraw : ∀ h ∈ hs, h.IsCurrentVersion = false) :
    (getFileHistoryPost hs).map (fun h => h.IsCurrentVersion) =
      true :: List.replicate (hs.length - 1) false ∧
    ∀ h ∈ getFileHistoryPost hs,
      h.Size = NewSize h.SizeBytes ∧
      h.LastModifiedUTCUnix = h.LastModifiedTimeUnix := by
  cases hs with
  | nil => exact absurd rfl hne
  | cons h0 rest =>
    constructor
    · simp only [getFileHistoryPost, List.map_cons, List.length_cons,
        Nat.add_sub_cancel]
      rw [map_isCurrent_update rest,
        map_false_replicate rest
          fun x hx => hraw x (List.mem_cons_of_mem h0 hx)]
    · intro h hmem
      simp only [getFileHistoryPost, List.mem_map] at hmem
      obtain ⟨y, _, rfl⟩ := hmem
      exact ⟨rfl, rfl⟩

/-- C6 amended witness: a two-element deserialized history whose raw
elements are not current. -/
theorem C6_history_current_version_witness :
    (getFileHistoryPost [c6H 2 false, c6H 1 false]).map
        (fun h => h.IsCurrentVersion) = [true, false] := by
  have h := C6_history_current_version [c6H 2 false, c6H 1 false]
    (by simp) (by decide)
  simpa using h.1

/-- The lookup loop of RestoreFileFromHistory (client source lines
637-643): linear scan for the first element with the requested revision. -/
def findHistoryByRevision : List History → Int → Option History
  | [], _ => none
  | h :: t, rev =>
    if h.Revision = rev then some h else findHistoryByRevision t rev

theorem findHistoryByRevision_eq_none (hs : List History) (rev : Int)
    (h : ∀ x ∈ hs, x.Revision ≠ rev) :
    findHistoryByRevision hs rev = none := by
  induction hs with
  | nil => rfl
  | cons a t ih =>
    simp only [findHistoryByRevision, if_neg (h a (by simp))]
    exact ih fun x hx => h x (List.mem_cons_of_mem a hx)

/-- CloudClient.RestoreFileFromHistory (client source lines 617-681) up
to the history lookup: the revision and capacity rejections, then a
linear scan of the fetched history (the fetch outcome is a parameter
standing for the GetFileHistory result).  On success the source goes on
to derive the destination name and issue the create call; the model
returns the located entry. -/
def RestoreFileFromHistory (a : Account)
    (fetch : Except OpError (List History)) (historyRevision : Int) :
    Except OpError History :=
  if historyRevision ≤ 0 then
    .error (.cloud ⟨"Ревизия должна быть больше 0", "",
      ErrorCode.historyNotExists⟩)
  else if a.Has2GBUploadSizeLimit then
    .error (.cloud
      ⟨"Текущая операция не поддерживается для вашего аккаунта. Пожалуйста, обновите тарифный план",
       "", ErrorCode.notSupportedOperation⟩)
  else
    match fetch with
    | .error e => .error e
    | .ok histories =>
      match findHistoryByRevision histories historyRevision with
      | none =>
        .error (.cloud
          ⟨"История не существует по указанному номеру ревизии",
           "historyRevision", ErrorCode.historyNotExists⟩)
      | some h => .ok h

/-- C4: RestoreFileFromHistory fails with HistoryNotExists for every
revision ≤ 0; for a positive revision it fails with
NotSupportedOperation whenever the account is capacity-limited; and for
a positive revision on a non-capacity-limited account it fails with
HistoryNotExists whenever no fetched history entry carries that revision
(the lookup being a linear scan). -/
theorem C4_restoreFileFromHistory :
    (∀ (a : Account) (fetch : Except OpError (List History)) (rev : Int),
      rev ≤ 0 →
      resultCode (RestoreFileFromHistory a fetch rev) =
        some ErrorCode.historyNotExists) ∧
    (∀ (a : Account) (fetch : Except OpError (List History)) (rev : Int),
      0 < rev → a.Has2GBUploadSizeLimit = true →
      resultCode (RestoreFileFromHistory a fetch rev) =
        some ErrorCode.notSupportedOperation) ∧
    (∀ (a : Account) (hs : List History) (rev : Int),
      0 < rev → a.Has2GBUploadSizeLimit = false →
      (∀ h ∈ hs, h.Revision ≠ rev) →
      resultCode (RestoreFileFromHistory a (.ok hs) rev) =
        some ErrorCode.historyNotExists) := by
  refine ⟨?_, ?_, ?_⟩
  · intro a fetch rev h
    unfold RestoreFileFromHistory
    rw [if_pos h]
    rfl
  · intro a fetch rev h h2
    unfold RestoreFileFromHistory
    rw [if_neg (by omega), if_pos h2]
    rfl
  · intro a hs rev h h2 hnone
    unfold RestoreFileFromHistory
    rw [if_neg (by omega), if_neg (by rw [h2]; simp)]
    simp only [findHistoryByRevision_eq_none hs rev hnone]
    rfl

/-- C4 witness: revision 0 on a capacity-limited account, revision 1 on
a capacity-limited account, and revision 1 against a history that only
contains revision 2 on an unrestricted account. -/
theorem C4_restoreFileFromHistory_witness :
    resultCode (RestoreFileFromHistory ⟨"e", "p", []⟩ (.ok []) 0) =
      some ErrorCode.historyNotExists ∧
    resultCode (RestoreFileFromHistory ⟨"e", "p", []⟩ (.ok []) 1) =
      some ErrorCode.notSupportedOperation ∧
    resultCode (RestoreFileFromHistory
        ⟨"e", "p", [⟨"PRO", true, "PRO", true, 0⟩]⟩
        (.ok [⟨2, 0, "f", "/f", NewSize 4, false, 2, "h", 10, 4⟩]) 1) =
      some ErrorCode.historyNotExists :=
  ⟨C4_restoreFileFromHistory.1 ⟨"e", "p", []⟩ (.ok []) 0 (by norm_num),
   C4_restoreFileFromHistory.2.1 ⟨"e", "p", []⟩ (.ok []) 1 (by norm_num)
     (by decide),
   C4_restoreFileFromHistory.2.2 ⟨"e", "p", [⟨"PRO", true, "PRO", true, 0⟩]⟩
     [⟨2, 0, "f", "/f", NewSize 4, false, 2, "h", 10, 4⟩] 1 (by norm_num)
     (by decide) (by decide)⟩

/-!  Publish/unpublish (client source publishUnpublishInternal, lines
1219-1302). -/

/-- CloudClient.publishUnpublishInternal.  The link-emptiness check and
the selection of the error kind by the publish flag are translated
directly; the HTTP exchange is summarized by its status and decoded body
string.  resolveSource stands for checkUnknownItemExisting on the
normalized path in the publish branch (none = no match, which that
helper reports as a PathNotExists error); resolveAfter stands for the
re-resolution of the returned path after an unpublish.  The source
performs one shared status check whose message and code are chosen by
the flag through map lookups; here that check is inlined into each
branch unchanged.  The unpublish branch's prefix-stripping
strings.Replace feeds only the request form data and has no further
observable effect in this model. -/
def publishUnpublishInternal (authorized : Bool) (link : String)
    (publish : Bool) (resolveSource : Option CloudStructureEntryBase)
    (status : Nat) (serverResult : String)
    (resolveAfter : Except OpError CloudStructureEntryBase) :
    Except OpError CloudStructureEntryBase :=
  if link = "" then
    .error (.cloud ⟨"Ссылка не может быть пустой", "",
      ErrorCode.pathNotExists⟩)
  else if ¬authorized then .error .notAuthorized
  else if publish then
    match resolveSource with
    | none =>
      .error (.cloud ⟨"Исходный элемент не существует в облаке",
        "sourceFullPath", ErrorCode.pathNotExists⟩)
    | some item =>
      if status = 404 ∨ status = 400 then
        .error (.cloud ⟨"Элемент по введенному пути не существует", "link",
          ErrorCode.pathNotExists⟩)
      else .ok { item with PublicLink := PublicLink ++ serverResult }
  else
    if status = 404 ∨ status = 400 then
      .error (.cloud
        ⟨"Элемент по введенному публичной ссылке не существует", "link",
         ErrorCode.publicLinkNotExists⟩)
    else resolveAfter

/-- C5 counterexample: unpublishing an empty link does not fail with
PublicLinkNotExists — the shared empty-argument check fires first and
reports PathNotExists. -/
theorem C5_counterexample :
    publishUnpublishInternal true "" false none 200 ""
        (.error .notAuthorized) =
      .error (.cloud ⟨"Ссылка не может быть пустой", "",
        ErrorCode.pathNotExists⟩) ∧
    ErrorCode.pathNotExists ≠ ErrorCode.publicLinkNotExists :=
  ⟨rfl, by decide⟩

/-- C5 amended: unpublishing an empty link fails with PathNotExists (the
generic empty-argument code); unpublishing a non-empty link the server
answers 404/400 to fails with PublicLinkNotExists; publishing a path
that does not resolve fails with PathNotExists, as does publishing a
resolving path the server answers 404/400 to — the kind chosen by the
publish/unpublish flag, not by the response content. -/
theorem C5_publishUnpublish_errors :
    (∀ (authorized publish : Bool) resolveSource status serverResult
        resolveAfter,
      publishUnpublishInternal authorized "" publish resolveSource status
          serverResult resolveAfter =
        .error (.cloud ⟨"Ссылка не может быть пустой", "",
          ErrorCode.pathNotExists⟩)) ∧
    (∀ (link : String) resolveSource status serverResult resolveAfter,
      link ≠ "" → (status = 404 ∨ status = 400) →
      resultCode (publishUnpublishInternal true link false resolveSource
          status serverResult resolveAfter) =
        some ErrorCode.publicLinkNotExists) ∧
    (∀ (link : String) status serverResult resolveAfter,
      link ≠ "" →
      resultCode (publishUnpublishInternal true link true none status
          serverResult resolveAfter) = some ErrorCode.pathNotExists) ∧
    (∀ (link : String) item status serverResult resolveAfter,
      link ≠ "" → (status = 404 ∨ status = 400) →
      resultCode (publishUnpublishInternal true link true (some item)
          status serverResult resolveAfter) =
        some ErrorCode.pathNotExists) := by
  refine ⟨?_, ?_, ?_, ?_⟩
  · intro authorized publish resolveSource status serverResult resolveAfter
    unfold publishUnpublishInternal
    rw [if_pos rfl]
  · intro link resolveSource status serverResult resolveAfter hl hs
    unfold publishUnpublishInternal
    rw [if_neg hl, if_neg (by simp), if_neg (by simp), if_pos hs]
    rfl
  · intro link status serverResult resolveAfter hl
    unfold publishUnpublishInternal
    rw [if_neg hl, if_neg (by simp), if_pos rfl]
    rfl
  · intro link item status serverResult resolveAfter hl hs
    unfold publishUnpublishInternal
    rw [if_neg hl, if_neg (by simp), if_pos rfl]
    simp only [if_pos hs]
    rfl

/-- C5 amended witness: a bare non-empty link the server rejects, a
non-resolving publish path, and a resolving publish path the server
rejects. -/
theorem C5_publishUnpublish_errors_witness :
    resultCode (publishUnpublishInternal true "nonexistent" false none 404
        "" (.error .notAuthorized)) = some ErrorCode.publicLinkNotExists ∧
    resultCode (publishUnpublishInternal true "/t/nonexistent" true none
        200 "" (.error .notAuthorized)) = some ErrorCode.pathNotExists ∧
    resultCode (publishUnpublishInternal true "/t/x" true
        (some ⟨"x", NewSize 1, "/t/x", "", 0, 0⟩) 404 ""
        (.error .notAuthorized)) = some ErrorCode.pathNotExists :=
  ⟨C5_publishUnpublish_errors.2.1 "nonexistent" none 404 ""
     (.error .notAuthorized) (by decide) (Or.inl rfl),
   C5_publishUnpublish_errors.2.2.1 "/t/nonexistent" 200 ""
     (.error .notAuthorized) (by decide),
   C5_publishUnpublish_errors.2.2.2 "/t/x" ⟨"x", NewSize 1, "/t/x", "", 0, 0⟩
     404 "" (.error .notAuthorized) (by decide) (Or.inl rfl)⟩

/-!  Upload (client source UploadFileFromStream, lines 1339-1471). -/

theorem getPathStartEndSlash_true_true_ne_nil (p : List Char) :
    getPathStartEndSlash p true true ≠ [] := by
  show collapseAux false ('/' :: (p ++ ['/'])) ≠ []
  exact collapseAux_false_ne_nil '/' (p ++ ['/'])

/-- The client-side checked prefix of CloudClient.UploadFileFromStream:
authorization, destination normalization, the empty-name, empty-content
and (dead after normalization) empty-path checks, the destination-folder
probe (getFolderFails stands for GetFolder returning a non-nil error),
and the tier-dependent size ceiling.  `.ok ()` marks that the size check
passed and the shard lookup plus PUT transfer would follow; content is
the byte sequence io.ReadAll collects. -/
def UploadFileFromStreamCheck (authorized : Bool) (a : Account)
    (destFileName : String) (content : List Nat)
    (destFolderPath : List Char) (getFolderFails : Bool) :
    Except OpError Unit :=
  if ¬authorized then .error .notAuthorized
  else
    let destFolderPath := getPathStartEndSlash destFolderPath true true
    if destFileName = "" then
      .error (.cloud ⟨"Имя файла не может быть пустым", "",
        ErrorCode.pathNotExists⟩)
    else if content.length = 0 then
      .error (.cloud ⟨"Содержимое не может быть пустым", "",
        ErrorCode.pathNotExists⟩)
    else if destFolderPath = [] then
      .error (.cloud ⟨"Путь к папке назначения не может быть пустым", "",
        ErrorCode.pathNotExists⟩)
    else if getFolderFails then
      .error (.cloud ⟨"Путь не существует", "destFolderPath",
        ErrorCode.pathNotExists⟩)
    else
      let fileSize : Int := content.length
      let sizeLimit : Int :=
        if a.Has2GBUploadSizeLimit then 2048 * 1024 * 1024
        else 32768 * 1024 * 1024
      if fileSize > sizeLimit then
        .error (.cloud ⟨"Максимальный лимит размера загрузки составляет " ++
          toString (sizeLimit / (1024 * 1024 * 1024)) ++ "GB", "content",
          ErrorCode.uploadingSizeLimit⟩)
      else .ok ()

/-- C3: empty content is rejected with an error before any transfer;
non-empty content longer than the ceiling — 2048*1024*1024 bytes on a
capacity-limited account, 32768*1024*1024 bytes otherwise — fails with
UploadingSizeLimit before the upload request; content at or below the
ceiling passes the size check. -/
theorem C3_uploadFileFromStream :
    (∀ (authorized : Bool) (a : Account) (destFileName : String)
        (destFolderPath : List Char) (gff : Bool),
      ∃ e, UploadFileFromStreamCheck authorized a destFileName []
        destFolderPath gff = .error e) ∧
    (∀ (a : Account) (destFileName : String) (content : List Nat)
        (destFolderPath : List Char),
      destFileName ≠ "" → a.Has2GBUploadSizeLimit = true →
      (content.length : Int) > 2048 * 1024 * 1024 →
      resultCode (UploadFileFromStreamCheck true a destFileName content
          destFolderPath false) = some ErrorCode.uploadingSizeLimit) ∧
    (∀ (a : Account) (destFileName : String) (content : List Nat)
        (destFolderPath : List Char),
      destFileName ≠ "" → a.Has2GBUploadSizeLimit = false →
      (content.length : Int) > 32768 * 1024 * 1024 →
      resultCode (UploadFileFromStreamCheck true a destFileName content
          destFolderPath false) = some ErrorCode.uploadingSizeLimit) ∧
    (∀ (a : Account) (destFileName : String) (content : List Nat)
        (destFolderPath : List Char),
      destFileName ≠ "" → a.Has2GBUploadSizeLimit = true →
      0 < content.length → (content.length : Int) ≤ 2048 * 1024 * 1024 →
      UploadFileFromStreamCheck true a destFileName content
        destFolderPath false = .ok ()) ∧
    (∀ (a : Account) (destFileName : String) (content : List Nat)
        (destFolderPath : List Char),
      destFileName ≠ "" → a.Has2GBUploadSizeLimit = false →
      0 < content.length → (content.length : Int) ≤ 32768 * 1024 * 1024 →
      UploadFileFromStreamCheck true a destFileName content
        destFolderPath false = .ok ()) := by
  refine ⟨?_, ?_, ?_, ?_, ?_⟩
  · intro authorized a destFileName destFolderPath gff
    unfold UploadFileFromStreamCheck
    cases authorized with
    | false => exact ⟨.notAuthorized, rfl⟩
    | true =>
      rw [if_neg (by simp)]
      by_cases hn : destFileName = ""
      · rw [if_pos hn]
        exact ⟨_, rfl⟩
      · rw [if_neg hn, if_pos List.length_nil]
        exact ⟨_, rfl⟩
  · intro a destFileName content destFolderPath hn h2 hlen
    unfold UploadFileFromStreamCheck
    rw [if_neg (by simp), if_neg hn, if_neg (by omega),
      if_neg (getPathStartEndSlash_true_true_ne_nil destFolderPath),
      if_neg (by simp), if_pos (by rw [h2]; simpa using hlen)]
    rfl
  · intro a destFileName content destFolderPath hn h2 hlen
    unfold UploadFileFromStreamCheck
    rw [if_neg (by simp), if_neg hn, if_neg (by omega),
      if_neg (getPathStartEndSlash_true_true_ne_nil destFolderPath),
      if_neg (by simp), if_pos (by rw [h2]; simpa using hlen)]
    rfl
  · intro a destFileName content destFolderPath hn h2 hpos hlen
    unfold UploadFileFromStreamCheck
    rw [if_neg (by simp), if_neg hn, if_neg (by omega),
      if_neg (getPathStartEndSlash_true_true_ne_nil destFolderPath),
      if_neg (by simp), if_neg (by rw [h2]; simpa using not_lt.mpr hlen)]
  · intro a destFileName content destFolderPath hn h2 hpos hlen
    unfold UploadFileFromStreamCheck
    rw [if_neg (by simp), if_neg hn, if_neg (by omega),
      if_neg (getPathStartEndSlash_true_true_ne_nil destFolderPath),
      if_neg (by simp), if_neg (by rw [h2]; simpa using not_lt.mpr hlen)]

/-- C3 witness: a one-past-the-ceiling content on a capacity-limited
account fails, and a one-byte content on the same account passes the
size check. -/
theorem C3_uploadFileFromStream_witness :
    resultCode (UploadFileFromStreamCheck true ⟨"e", "p", []⟩ "x"
        (List.replicate 2147483649 0) ("/t".toList) false) =
      some ErrorCode.uploadingSizeLimit ∧
    UploadFileFromStreamCheck true ⟨"e", "p", []⟩ "x" [7]
        ("/t".toList) false = .ok () :=
  ⟨C3_uploadFileFromStream.2.1 ⟨"e", "p", []⟩ "x"
     (List.replicate 2147483649 0) ("/t".toList) (by decide) (by decide)
     (by norm_num [List.length_replicate]),
   C3_uploadFileFromStream.2.2.2.1 ⟨"e", "p", []⟩ "x" [7] ("/t".toList)
     (by decide) (by decide) (by simp) (by simp)⟩

/-!  Entry-level Unpublish (src/unnamed/part_001 File, src/errors.go
Folder). -/

/-- File from src/unnamed/part_001: the embedded base plus Hash and the
last-modification time (modelled as epoch seconds). -/
structure File where
  base : CloudStructureEntryBase
  Hash : String
  LastModifiedUTCUnix : Int
  deriving DecidableEq, Repr

/-- File.Unpublish (src/unnamed/part_001 lines 33-43): an empty
PublicLink returns the same handle with no error and without invoking
the session-level Unpublish; otherwise the session result's link
replaces the local one.  The Bool records whether client.Unpublish was
invoked. -/
def File.Unpublish (f : File)
    (sessionResult : Except OpError CloudStructureEntryBase) :
    Except OpError File × Bool :=
  if f.base.PublicLink = "" then (.ok f, false)
  else
    match sessionResult with
    | .error e => (.error e, true)
    | .ok result =>
      (.ok { f with base := { f.base with PublicLink := result.PublicLink } },
       true)

/-- Folder.Unpublish (src/errors.go lines 151-161): identical shape. -/
def Folder.Unpublish (f : Folder)
    (sessionResult : Except OpError CloudStructureEntryBase) :
    Except OpError Folder × Bool :=
  if f.base.PublicLink = "" then (.ok f, false)
  else
    match sessionResult with
    | .error e => (.error e, true)
    | .ok result =>
      (.ok { f with base := { f.base with PublicLink := result.PublicLink } },
       true)

/-- C10: on a File or Folder handle whose PublicLink is empty, Unpublish
returns that same handle with no error and never invokes the
session-level Unpublish, leaving every field unchanged. -/
theorem C10_unpublish_empty_link_noop :
    (∀ (f : File) (r : Except OpError CloudStructureEntryBase),
      f.base.PublicLink = "" → File.Unpublish f r = (.ok f, false)) ∧
    (∀ (f : Folder) (r : Except OpError CloudStructureEntryBase),
      f.base.PublicLink = "" → Folder.Unpublish f r = (.ok f, false)) := by
  constructor
  · intro f r h
    simp [File.Unpublish, h]
  · intro f r h
    simp [Folder.Unpublish, h]

/-- A file and a folder handle with an empty public link. -/
def c10File : File := ⟨⟨"v.mp4", NewSize 3, "/t/v.mp4", "", 0, 0⟩, "h", 0⟩

def c10Folder : Folder := ⟨⟨"t", NewSize 3, "/t", "", 0, 0⟩, 2, 3, none⟩

/-- C10 witness: the no-op at a concrete file and folder, with a session
result that would fail if it were consulted. -/
theorem C10_unpublish_empty_link_noop_witness :
    File.Unpublish c10File (.error .notAuthorized) = (.ok c10File, false) ∧
    Folder.Unpublish c10Folder (.error .notAuthorized) =
      (.ok c10Folder, false) :=
  ⟨C10_unpublish_empty_link_noop.1 c10File (.error .notAuthorized) rfl,
   C10_unpublish_empty_link_noop.2 c10Folder (.error .notAuthorized) rfl⟩

end MailRuCloud
